import Mathlib

/-!
Verification of the KFX repacking engine of the fb2converter repository
(`processor/kfx/convert.go` and its helper file with `ionBVM`,
`createSymbolToken`, `createLocalSymbolToken`).

The Go code is shallowly embedded: byte slices become `List Nat`
(each element an octet value), strings become `String` (manipulated
through their character list `String.data` where the Go code uses
`strings.HasPrefix` / slicing), fallible functions return `Except`,
and the sqlite database is modelled as the lists of rows the queries
of `convert.go` return.  Results of calls into the external
`amzn/ion-go` library (an external collaborator, not part of this
repository) are modelled as oracle inputs describing the outcome of
each library call, exactly at the granularity at which `convert.go`
inspects them.
-/

set_option maxRecDepth 100000

deriving instance DecidableEq for Except

namespace Fb2c

/-! ## Constants of `unwrapKdf` (convert.go lines 78-121) -/

/-- `wrapperOffset = 0x400` -/
def wrapperOffset : Nat := 0x400

/-- `wrapperLength = 0x400` -/
def wrapperLength : Nat := 0x400

/-- `wrapperFrameLength = 0x100000` -/
def wrapperFrameLength : Nat := 0x100000

/-- `signature = []byte("SQLite format 3\x00")` — the 16 ASCII codes. -/
def signature : List Nat :=
  [0x53, 0x51, 0x4c, 0x69, 0x74, 0x65, 0x20, 0x66,
   0x6f, 0x72, 0x6d, 0x61, 0x74, 0x20, 0x33, 0x00]

/-- `fingerprint = []byte("\xfa\x50\x0a\x5f")` -/
def fingerprint : List Nat := [0xfa, 0x50, 0x0a, 0x5f]

/-- `header = []byte("\x01\x00\x00\x40\x20")` -/
def header : List Nat := [0x01, 0x00, 0x00, 0x40, 0x20]

/-- Structured form of the errors `unwrapKdf` produces with
`fmt.Errorf`; each constructor carries exactly the data the Go format
string interpolates. -/
inductive KdfError where
  | badLength (n : Nat)
  | badSignature (bs : List Nat)
  | badFingerprint (bs : List Nat)
  | badHeader (bs : List Nat)
  deriving DecidableEq, Repr

/-- Go renders a byte slice with `%v` as decimal values separated by
spaces inside brackets, e.g. `[250 80 10 95]`. -/
def renderBytes (bs : List Nat) : String :=
  "[" ++ String.intercalate " " (bs.map (fun n => toString n)) ++ "]"

/-- The message text of each `fmt.Errorf` in `unwrapKdf`. -/
def renderKdfError : KdfError → String
  | .badLength n => "unexpected SQLite file length: " ++ toString n
  | .badSignature bs => "unexpected SQLite file signature: " ++ renderBytes bs
  | .badFingerprint bs => "unexpected fingerprint: " ++ renderBytes bs
  | .badHeader bs => "unexpected fingerprint header: " ++ renderBytes bs

/-- The frame-elision loop of `unwrapKdf` (convert.go lines 105-115),
viewed from the suffix `d = data[prev:]` with `gap = curr - prev`:
the Go loop runs `prev, curr = 0, wrapperOffset`, then after each
iteration `prev, curr = curr+wrapperLength, curr+wrapperLength+wrapperFrameLength`,
so `gap` is `wrapperOffset` on entry and `wrapperFrameLength` afterwards.
The loop condition `curr+wrapperLength <= len(data)` is
`gap + wrapperLength ≤ d.length`; the fingerprint check reads
`data[curr : curr+4]`, the header check `data[curr+4 : curr+9]`;
on success `data[prev:curr]` is appended and the loop advances; when
the loop exits, the remaining `data[prev:]` is appended verbatim. -/
def unwrapLoop (gap : Nat) (d : List Nat) : Except KdfError (List Nat) :=
  if h : gap + wrapperLength ≤ d.length then
    if (d.drop gap).take 4 = fingerprint then
      if (d.drop (gap + 4)).take 5 = header then
        (d.take gap ++ ·) <$> unwrapLoop wrapperFrameLength (d.drop (gap + wrapperLength))
      else .error (.badHeader ((d.drop (gap + 4)).take 5))
    else .error (.badFingerprint ((d.drop gap).take 4))
  else .ok d
termination_by d.length
decreasing_by
  simp only [List.length_drop]
  simp only [wrapperLength] at h ⊢
  omega

/-- `unwrapKdf` (convert.go lines 78-121), restricted to its pure core:
the file read and write are threaded by the orchestrator model.  The
Go code checks `len(data) <= len(signature) || len(data) < 2*wrapperOffset`,
then the 16-byte signature, then runs the frame-elision loop. -/
def unwrapKdf (data : List Nat) : Except KdfError (List Nat) :=
  if data.length ≤ signature.length ∨ data.length < 2 * wrapperOffset then
    .error (.badLength data.length)
  else if data.take signature.length ≠ signature then
    .error (.badSignature (data.take signature.length))
  else
    unwrapLoop wrapperOffset data

/-! ## The inverse "scramble" described by the spec's round-trip property.

`kdfFrame` is a synthetic 1024-byte obfuscation frame: the fixed 4-byte
fingerprint, the fixed 5-byte header, then 1015 filler bytes.  `wrapKdf`
re-inserts such frames at the documented offsets: after the first 1024
plain bytes, and then after each subsequent full MiB of plain data. -/

/-- A synthetic obfuscation frame; `filler` must have 1015 bytes for the
frame to be `wrapperLength` bytes long. -/
def kdfFrame (filler : List Nat) : List Nat := fingerprint ++ header ++ filler

/-- Insert a synthetic frame after each full `wrapperFrameLength` chunk
of the remaining plain data. -/
def wrapAux (filler : List Nat) (rest : List Nat) : List Nat :=
  if h : wrapperFrameLength < rest.length then
    rest.take wrapperFrameLength ++ kdfFrame filler ++
      wrapAux filler (rest.drop wrapperFrameLength)
  else rest
termination_by rest.length
decreasing_by
  simp only [List.length_drop]
  simp only [wrapperFrameLength] at h ⊢
  omega

/-- The inverse "scramble": first 1024 plain bytes, a synthetic frame,
then MiB chunks each followed by a synthetic frame (none after a final
partial or exactly-full chunk). -/
def wrapKdf (filler : List Nat) (plain : List Nat) : List Nat :=
  plain.take wrapperOffset ++ kdfFrame filler ++ wrapAux filler (plain.drop wrapperOffset)

/-! ## The frame offsets visited by the descrambler loop.

The sequence of `curr` values of the Go loop depends only on the length
of the input (the loop advances by fixed strides), so it can be computed
from the length alone: `loopOffsets gap n` is the list of offsets
(relative to the current suffix) at which `unwrapLoop gap` checks a
fingerprint and header. -/

def loopOffsets (gap n : Nat) : List Nat :=
  if h : gap + wrapperLength ≤ n then
    gap :: (loopOffsets wrapperFrameLength (n - (gap + wrapperLength))).map
      (· + (gap + wrapperLength))
  else []
termination_by n
decreasing_by
  simp only [wrapperLength] at h ⊢
  omega

/-- Absolute frame offsets of an input of length `n`, as visited by
`unwrapKdf`. -/
def frameOffsets (n : Nat) : List Nat := loopOffsets wrapperOffset n

/-! ## Schema validator (`readSchema`, convert.go lines 144-196) -/

/-- The `knowns` map of `readSchema`: exact definition text → canonical
table name, transcribed character-for-character from the source.  Go
stores this as a map used only for lookup, so an association list keyed
by the definition text is an exact model. -/
def knowns : List (String × String) :=
  [("CREATE TABLE index_info(namespace char(256), index_name char(256), property char(40), primary key (namespace, index_name)) without rowid",
    "index_info"),
   ("CREATE TABLE kfxid_translation(eid INTEGER, kfxid char(40), primary key(eid)) without rowid",
    "kfxid_translation"),
   ("CREATE TABLE fragment_properties(id char(40), key char(40), value char(40), primary key (id, key, value)) without rowid",
    "fragment_properties"),
   ("CREATE TABLE fragments(id char(40), payload_type char(10), payload_value blob, primary key (id))",
    "fragments"),
   ("CREATE TABLE gc_fragment_properties(id varchar(40), key varchar(40), value varchar(40), primary key (id, key, value)) without rowid",
    "gc_fragment_properties"),
   ("CREATE TABLE gc_reachable(id varchar(40), primary key (id)) without rowid",
    "gc_reachable"),
   ("CREATE TABLE capabilities(key char(20), version smallint, primary key (key, version)) without rowid",
    "capabilities")]

/-- The `mustHave` set of `readSchema`.  Go iterates the residual map in
unspecified order when building the error message; the model fixes the
declaration order, which carries the same set of names. -/
def mustHaveList : List String := ["capabilities", "fragments"]

/-- Structured form of the errors of `readSchema`. -/
inductive SchemaError where
  | unexpectedTable (tbl schema : String)
  | unexpectedName (tbl schema : String)
  | missingTables (absent : List String)
  deriving DecidableEq, Repr

/-- The row loop of `readSchema` over the `sqlite_master` rows
`(name, sql)`: each definition text must be a key of `knowns` and map
to the stored table name; recognized names accumulate into `c.tables`.
After the loop, must-have tables not seen produce the
"unable to find some of expected tables" error naming all of them. -/
def schemaLoop : List (String × String) → List String → Except SchemaError (List String)
  | [], acc =>
    let absent := mustHaveList.filter (fun k => !acc.contains k)
    if absent.isEmpty then .ok acc else .error (.missingTables absent)
  | (tbl, schema) :: rest, acc =>
    match knowns.lookup schema with
    | none => .error (.unexpectedTable tbl schema)
    | some name =>
      if name = tbl then schemaLoop rest (acc ++ [tbl])
      else .error (.unexpectedName tbl schema)

/-- `readSchema` (convert.go lines 144-196) on the enumerated
`(name, sql)` rows of type `table`. -/
def readSchema (rows : List (String × String)) : Except SchemaError (List String) :=
  schemaLoop rows []

/-! ## Symbol tokens (`createSymbolToken` / `createLocalSymbolToken`,
helper file lines 13-40) -/

/-- `ion.SymbolToken`: `Text *string`, `LocalSID int64`; both
constructors of this repository always set `Text` to the input string. -/
structure SymbolToken where
  text : Option String
  localSID : Int
  deriving DecidableEq, Repr

/-- `ion.SymbolIDUnknown` -/
def symbolIDUnknown : Int := -1

/-- Value of a string of decimal digits. -/
def digitsVal (cs : List Char) : Nat :=
  cs.foldl (fun a c => a * 10 + (c.toNat - 48)) 0

/-- Parse a non-empty all-digit string. -/
def parseDigits (cs : List Char) : Option Nat :=
  if cs ≠ [] ∧ cs.all (·.isDigit) then some (digitsVal cs) else none

def int64Max : Int := 2 ^ 63 - 1

def int64Min : Int := -(2 ^ 63)

/-- Model of `strconv.ParseInt(s, 10, 64)`: an optional sign followed by
decimal digits, with the value required to fit in a signed 64-bit
integer (Go returns a range error otherwise, which the callers treat
the same as a syntax error). -/
def parseInt64Chars (cs : List Char) : Option Int :=
  match cs with
  | [] => none
  | c :: t =>
    if c = '+' then
      (parseDigits t).bind fun n => if (n : Int) ≤ int64Max then some (n : Int) else none
    else if c = '-' then
      (parseDigits t).bind fun n => if int64Min ≤ -(n : Int) then some (-(n : Int)) else none
    else
      (parseDigits (c :: t)).bind fun n => if (n : Int) ≤ int64Max then some (n : Int) else none

/-- Reinterpret the `uint64` returned by the builder's `Add` as the
`int64` the Go code casts it to. -/
def int64OfUInt64 (n : Nat) : Int :=
  let m : Nat := n % 2 ^ 64
  if m < 2 ^ 63 then (m : Int) else (m : Int) - 2 ^ 64

/-- `createSymbolToken` (helper file lines 13-27).  The external mutable
`ion.SymbolTableBuilder` is abstracted as the id-assignment function its
`Add` method realizes; `nil` is `none`. -/
def createSymbolToken (symbol : String) (stb : Option (String → Nat)) : SymbolToken :=
  if symbol.data.head? = some '$' then
    match parseInt64Chars symbol.data.tail with
    | some sid => ⟨some symbol, sid⟩
    | none => ⟨some symbol, symbolIDUnknown⟩
  else
    match stb with
    | some add => ⟨some symbol, int64OfUInt64 (add symbol)⟩
    | none => ⟨some symbol, symbolIDUnknown⟩

/-- `createLocalSymbolToken` (helper file lines 29-40); the logger
argument only emits a warning and is dropped from the model. -/
def createLocalSymbolToken (symbol : String) : SymbolToken :=
  if symbol.data.head? = some '$' then
    match parseInt64Chars symbol.data.tail with
    | some sid => ⟨some symbol, sid⟩
    | none => ⟨some symbol, symbolIDUnknown⟩
  else ⟨some symbol, symbolIDUnknown⟩

/-! ## Auxiliary table readers (convert.go lines 198-255) -/

/-- Database-level failures (`Query`, `Scan`, `rows.Err`); the row-list
model always scans successfully, so no model function produces one. -/
inductive DBError where
  | io (msg : String)
  deriving DecidableEq, Repr

/-- Row loop of `readKfxIDTranslations`: the Go map write
`c.eidSymbols[eid] = createLocalSymbolToken(kfxid, c.log)` is modelled
by function update (later rows overwrite earlier ones, as in Go). -/
def kfxLoop : List (Int × String) → (Int → Option SymbolToken) → (Int → Option SymbolToken)
  | [], m => m
  | (e, kfxid) :: rest, m =>
    kfxLoop rest (fun k => if k = e then some (createLocalSymbolToken kfxid) else m k)

/-- `readKfxIDTranslations` (convert.go lines 198-224): a no-op when the
optional table is absent from the verified set. -/
def readKfxIDTranslations (tables : List String) (rows : List (Int × String)) :
    Except DBError (Int → Option SymbolToken) :=
  if !tables.contains "kfxid_translation" then .ok (fun _ => none)
  else .ok (kfxLoop rows (fun _ => none))

/-- Structured form of the `readFragmentProperties` error. -/
inductive PropsError where
  | unknownKey (key id value : String)
  deriving DecidableEq, Repr

/-- Row loop of `readFragmentProperties`: `child` rows are ignored,
`element_type` rows update the `c.elementTypes` map, any other key is
the fatal "fragment property has unknown key" error. -/
def propsLoop : List (String × String × String) → (String → Option String) →
    Except PropsError (String → Option String)
  | [], m => .ok m
  | (id, key, value) :: rest, m =>
    if key = "child" then propsLoop rest m
    else if key = "element_type" then
      propsLoop rest (fun k => if k = id then some value else m k)
    else .error (.unknownKey key id value)

/-- `readFragmentProperties` (convert.go lines 226-255). -/
def readFragmentProperties (tables : List String) (rows : List (String × String × String)) :
    Except PropsError (String → Option String) :=
  if !tables.contains "fragment_properties" then .ok (fun _ => none)
  else propsLoop rows (fun _ => none)

/-! ## Fragment decoder (`readFragments`, convert.go lines 257-402)

The binary-ion decoding is performed by the external `amzn/ion-go`
library; its results are modelled as oracle functions from the payload
bytes to an outcome record holding exactly what `readFragments`
inspects. -/

/-- `ionBVM = []byte{0xE0, 1, 0, 0xEA}` — the binary version marker. -/
def ionBVM : List Nat := [0xE0, 1, 0, 0xEA]

/-- Outcome of an `ion` error value as `convert.go` inspects it:
whether `errors.Is(err, ion.ErrNoInput)` holds. -/
structure IonErr where
  noInput : Bool
  deriving DecidableEq, Repr

/-- Outcome of decoding the `$ion_symbol_table` payload:
the `Decode()` error (if any), whether a non-nil value was returned,
and the import names and `MaxID()` of the reader's symbol table. -/
structure SymtabOutcome where
  decodeErr : Option IonErr
  decodeVal : Bool
  imports : List String
  maxID : Nat
  deriving DecidableEq, Repr

/-- Outcome of `DecodeTo(&maxID)` on the `max_id` payload: the error
(if any) and the content of the `maxID` variable after the call. -/
structure MaxIDOutcome where
  decodeErr : Option IonErr
  value : Nat
  deriving DecidableEq, Repr

/-- Default values (convert.go lines 28-33). -/
def defaultCompression : Nat := 0

def defaultDRMScheme : Nat := 0

def defaultFragmentVersion : Nat := 1

/-- The `frag` record (convert.go lines 35-42). -/
structure Frag where
  version : Nat
  compression : Nat
  drm : Nat
  ftype : SymbolToken
  fid : SymbolToken
  data : List Nat
  deriving DecidableEq, Repr

/-- `newFrag` (convert.go lines 44-53). -/
def newFrag (ftype fid : SymbolToken) (data : List Nat) : Frag :=
  ⟨defaultFragmentVersion, defaultCompression, defaultDRMScheme, ftype, fid, data⟩

/-- Structured form of the errors of `readFragments` (including those of
the disabled Phase B block). -/
inductive FragError where
  | symtabQuery
  | symtabDecode
  | symtabValue
  | importsCount (n : Nat)
  | importsName
  | maxIDQuery
  | maxIDDecode
  | maxIDNil
  | maxIDMismatch (fragVal symVal : Nat)
  | fragmentRead (id : String)
  | fragmentDeref (id : String)
  | unexpectedPayloadType (ptype id : String) (size : Nat)
  deriving DecidableEq, Repr

/-- `QueryRow(... WHERE id = '<id>' AND payload_type = 'blob').Scan`:
the first matching row's payload, if any. -/
def findFragRow (rows : List (String × String × List Nat)) (id : String) : Option (List Nat) :=
  (rows.find? (fun r => r.1 == id && r.2.1 == "blob")).map (·.2.2)

/-- `readFragments` as compiled (convert.go lines 257-402): Phase A
(symbol-table bootstrap and max-id cross-validation) runs; the Phase B
row iteration is present in the source only inside a block comment, so
after a successful Phase A the function returns with `c.fragments`
still the empty list it was initialized to on line 259. -/
def readFragments (rows : List (String × String × List Nat))
    (symtabOf : List Nat → SymtabOutcome) (maxIDOf : List Nat → MaxIDOutcome) :
    Except FragError (List Frag) :=
  match findFragRow rows "$ion_symbol_table" with
  | none => .error .symtabQuery
  | some ist =>
    let st := symtabOf ist
    if (match st.decodeErr with | some e => !e.noInput | none => false) then
      .error .symtabDecode
    else if st.decodeVal then .error .symtabValue
    else if st.imports.length ≠ 2 then .error (.importsCount st.imports.length)
    else if st.imports.getD 0 "" ≠ "$ion" ∨ st.imports.getD 1 "" ≠ "YJ_symbols" then
      .error .importsName
    else
      match findFragRow rows "max_id" with
      | none => .error .maxIDQuery
      | some blob =>
        let mo := maxIDOf blob
        if (match mo.decodeErr with | some e => !e.noInput | none => false) then
          .error .maxIDDecode
        else if mo.decodeErr.isSome && mo.value == 0 then .error .maxIDNil
        else if mo.value ≠ st.maxID then .error (.maxIDMismatch mo.value st.maxID)
        else .ok []

/-! ### Phase B as written in the disabled block (convert.go lines 304-400)

The block references a reader built over the symbol-table bytes and the
payload past the version marker, and a `dereferenceKfxIDs` helper that
is not part of the repository; both are abstracted as the
`AnnotatedRead` oracle below.  The symbol builder `stb` created by
`ion.NewSymbolTableBuilder(nil)` is the same abstraction as in
`createSymbolToken`. -/

/-- What the disabled block observes of the annotated-value reader for
one payload: `r.Next()`, the `r.Annotations()` error, the annotation
texts, `r.Type() == ion.NoType`, and the `dereferenceKfxIDs` outcome
(`none` models a dereference error, `some data` the rewritten bytes). -/
structure AnnotatedRead where
  nextOk : Bool
  annotsErr : Bool
  annots : List String
  typeNone : Bool
  deref : Option (List Nat)
  deriving DecidableEq, Repr

/-- `if !strings.HasPrefix(id, "resource/") { id = "resource/" + id }` -/
def resourceID (id : String) : String :=
  if ("resource/".data).isPrefixOf id.data then id else "resource/" ++ id

/-- The annotation-count switch of the disabled block: `l == 0` skips,
`l == 2` with second annotation `$608` proceeds, any other `l > 1`
skips, `l == 1` proceeds. -/
def annotsSkip (r : AnnotatedRead) : Bool :=
  if r.annots.length = 0 then true
  else if r.annots.length = 2 && r.annots.getD 1 "" == "$608" then false
  else if r.annots.length > 1 then true
  else false

/-- The row loop of the disabled Phase B block, over the rows returned
by the query excluding the two bootstrap ids.  The disabled block calls
a two-result `newFragment`; the repository's compiled constructor is the
infallible `newFrag`, which is used here. -/
def phaseBRows (stb : Option (String → Nat)) (readOf : String → List Nat → AnnotatedRead) :
    List (String × String × List Nat) → Except FragError (List Frag)
  | [] => .ok []
  | (id, ptype, blob) :: rest =>
    if ptype = "blob" then
      if blob.length = 0 then phaseBRows stb readOf rest
      else if !(ionBVM.isPrefixOf blob) then
        (newFrag (createSymbolToken "$417" stb) (createSymbolToken (resourceID id) stb) blob :: ·)
          <$> phaseBRows stb readOf rest
      else if blob = ionBVM then phaseBRows stb readOf rest
      else
        let r := readOf id blob
        if !r.nextOk then .error (.fragmentRead id)
        else if r.annotsErr then .error (.fragmentRead id)
        else if annotsSkip r then phaseBRows stb readOf rest
        else if r.typeNone then phaseBRows stb readOf rest
        else
          match r.deref with
          | none => .error (.fragmentDeref id)
          | some data =>
            (newFrag (createSymbolToken (r.annots.getD 0 "") stb) (createSymbolToken id stb) data :: ·)
              <$> phaseBRows stb readOf rest
    else if ptype = "path" then
      (newFrag (createSymbolToken "$417" stb) (createSymbolToken (resourceID id) stb) blob :: ·)
        <$> phaseBRows stb readOf rest
    else .error (.unexpectedPayloadType ptype id blob.length)

/-- Phase B of the disabled block: the SQL query excludes the two
bootstrap rows, then the row loop runs. -/
def phaseB (stb : Option (String → Nat)) (readOf : String → List Nat → AnnotatedRead)
    (rows : List (String × String × List Nat)) : Except FragError (List Frag) :=
  phaseBRows stb readOf
    (rows.filter (fun r => r.1 != "max_id" && r.1 != "$ion_symbol_table"))

/-- Classification of a single Phase B row into `some` produced fragment
or `none` (skipped), mirroring the non-fatal outcomes of the loop. -/
def classifyRow (stb : Option (String → Nat)) (readOf : String → List Nat → AnnotatedRead)
    (row : String × String × List Nat) : Option Frag :=
  let (id, ptype, blob) := row
  if ptype = "blob" then
    if blob.length = 0 then none
    else if !(ionBVM.isPrefixOf blob) then
      some (newFrag (createSymbolToken "$417" stb) (createSymbolToken (resourceID id) stb) blob)
    else if blob = ionBVM then none
    else
      let r := readOf id blob
      if !r.nextOk then none
      else if r.annotsErr then none
      else if annotsSkip r then none
      else if r.typeNone then none
      else
        match r.deref with
        | none => none
        | some data =>
          some (newFrag (createSymbolToken (r.annots.getD 0 "") stb) (createSymbolToken id stb) data)
  else if ptype = "path" then
    some (newFrag (createSymbolToken "$417" stb) (createSymbolToken (resourceID id) stb) blob)
  else none

/-- Whether a Phase B row takes one of the fatal (conversion-aborting)
paths of the disabled loop. -/
def rowFatal (readOf : String → List Nat → AnnotatedRead)
    (row : String × String × List Nat) : Bool :=
  let (id, ptype, blob) := row
  if ptype = "blob" then
    if blob.length = 0 then false
    else if !(ionBVM.isPrefixOf blob) then false
    else if blob = ionBVM then false
    else
      let r := readOf id blob
      if !r.nextOk then true
      else if r.annotsErr then true
      else if annotsSkip r then false
      else if r.typeNone then false
      else
        match r.deref with
        | none => true
        | some _ => false
  else if ptype = "path" then false
  else true

/-! ## Orchestrator (`ConvertFromKpf`, convert.go lines 405-457)

The filesystem and database side effects are modelled as the outcomes
the environment supplies for each effectful step, in pipeline order:
`unpackKpf`, the `os.ReadFile` inside `unwrapKdf`, the `os.WriteFile`
inside `unwrapKdf`, `sql.Open`, then the four readers over the row
lists of the opened database. -/

structure World where
  unpackRes : Except Unit Unit
  readKdfRes : Except Unit (List Nat)
  writeRes : Except Unit Unit
  openRes : Except Unit Unit
  masterRows : List (String × String)
  kfxidRows : List (Int × String)
  propRows : List (String × String × String)
  fragRows : List (String × String × List Nat)
  symtabOf : List Nat → SymtabOutcome
  maxIDOf : List Nat → MaxIDOutcome

/-- Structured form of the errors `ConvertFromKpf` can return, one
constructor per `return`-with-error site. -/
inductive ConvertError where
  | unpack
  | readFile
  | unwrap (e : KdfError)
  | writeFile
  | openDB
  | schema (e : SchemaError)
  | translations (e : DBError)
  | properties (e : PropsError)
  | fragments (e : FragError)
  | fixmeDone
  deriving DecidableEq, Repr

/-- `ConvertFromKpf` (convert.go lines 405-457): the stage sequence, each
failure returning immediately; the successful path ends in
`fmt.Errorf("FIX ME DONE: ConvertFromKpf")` on line 456. -/
def convertFromKpf (w : World) : Except ConvertError Unit := do
  let _ ← w.unpackRes.mapError fun _ => ConvertError.unpack
  let data ← w.readKdfRes.mapError fun _ => ConvertError.readFile
  let _ ← (unwrapKdf data).mapError ConvertError.unwrap
  let _ ← w.writeRes.mapError fun _ => ConvertError.writeFile
  let _ ← w.openRes.mapError fun _ => ConvertError.openDB
  let tables ← (readSchema w.masterRows).mapError ConvertError.schema
  let _ ← (readKfxIDTranslations tables w.kfxidRows).mapError ConvertError.translations
  let _ ← (readFragmentProperties tables w.propRows).mapError ConvertError.properties
  let _ ← (readFragments w.fragRows w.symtabOf w.maxIDOf).mapError ConvertError.fragments
  .error .fixmeDone

/-! ## Concrete inputs used by witnesses and counterexamples -/

/-- A minimal well-formed plain database file: the signature followed by
1008 filler bytes, 1024 bytes in total. -/
def plainW : List Nat := signature ++ List.replicate 1008 7

/-- Synthetic frame filler. -/
def fillerW : List Nat := List.replicate 1015 0

/-- The scrambled form of `plainW`: 1024 plain bytes followed by one
obfuscation frame, 2048 bytes in total. -/
def dataW : List Nat := plainW ++ kdfFrame fillerW

/-- All seven known tables, with their exact catalog definition texts. -/
def masterRowsW : List (String × String) := knowns.map (fun kv => (kv.2, kv.1))

/-- A database with `capabilities` and an optional table but no
`fragments` table. -/
def masterRowsNoFragW : List (String × String) :=
  [("capabilities",
    "CREATE TABLE capabilities(key char(20), version smallint, primary key (key, version)) without rowid"),
   ("index_info",
    "CREATE TABLE index_info(namespace char(256), index_name char(256), property char(40), primary key (namespace, index_name)) without rowid")]

/-- Symbol-table decode outcome of a well-formed bootstrap fragment:
`Decode` reports no input, no value, the two expected imports, max id
42. -/
def symtabOutcomeW : SymtabOutcome := ⟨some ⟨true⟩, false, ["$ion", "YJ_symbols"], 42⟩

/-- `max_id` decode outcome 42 (agreeing). -/
def maxIDOutcomeW : MaxIDOutcome := ⟨none, 42⟩

/-- `max_id` decode outcome 43 (disagreeing). -/
def maxIDOutcomeBadW : MaxIDOutcome := ⟨none, 43⟩

/-- Fragment rows: the two bootstrap rows plus one raw resource row
whose payload lacks the version marker. -/
def fragRowsW : List (String × String × List Nat) :=
  [("$ion_symbol_table", "blob", [0xE0, 1, 0, 0xEA]),
   ("max_id", "blob", [0x21, 0x2A]),
   ("images/cover.jpg", "blob", [1, 2, 3])]

/-- A world in which every stage succeeds. -/
def worldW : World :=
  ⟨.ok (), .ok dataW, .ok (), .ok (), masterRowsW, [], [], fragRowsW,
   fun _ => symtabOutcomeW, fun _ => maxIDOutcomeW⟩

/-- A fragments table holding just the two bootstrap rows. -/
def bootstrapDB (b1 b2 : List Nat) : List (String × String × List Nat) :=
  [("$ion_symbol_table", "blob", b1), ("max_id", "blob", b2)]

/-- A concrete annotated-value reader oracle for Phase B witnesses. -/
def readOfW : String → List Nat → AnnotatedRead :=
  fun _ _ => ⟨true, false, ["$259"], false, some [9]⟩

/-- A concrete symbol-builder assignment for Phase B witnesses. -/
def addW : String → Nat := fun _ => 900

/-! ## Round-trip lemmas for the descrambler -/

theorem length_kdfFrame (filler : List Nat) (hf : filler.length = 1015) :
    (kdfFrame filler).length = 1024 := by
  simp [kdfFrame, fingerprint, header, hf]

/-- When fewer than `gap + wrapperLength` bytes remain the loop exits,
copying the remaining bytes verbatim. -/
theorem unwrapLoop_small {gap : Nat} {d : List Nat}
    (h : d.length < gap + wrapperLength) :
    unwrapLoop gap d = .ok d := by
  rw [unwrapLoop, dif_neg (by omega)]

/-- One successful loop iteration: `gap` real bytes, then an intact
synthetic frame, leave the rest to the next iteration. -/
theorem unwrapLoop_frame_step (gap : Nat) (a filler w : List Nat)
    (ha : a.length = gap) (hf : filler.length = 1015) :
    unwrapLoop gap (a ++ (kdfFrame filler ++ w))
      = (a ++ ·) <$> unwrapLoop wrapperFrameLength w := by
  have hfp : fingerprint.length = 4 := by decide
  have hhd : header.length = 5 := by decide
  have hcond : gap + wrapperLength ≤ (a ++ (kdfFrame filler ++ w)).length := by
    simp [List.length_append, ha, length_kdfFrame filler hf, wrapperLength]
  rw [unwrapLoop, dif_pos hcond]
  have hdrop : (a ++ (kdfFrame filler ++ w)).drop gap = kdfFrame filler ++ w :=
    List.drop_left' ha
  have hdrop4 : (a ++ (kdfFrame filler ++ w)).drop (gap + 4)
      = header ++ (filler ++ w) := by
    have : a ++ (kdfFrame filler ++ w) = (a ++ fingerprint) ++ (header ++ (filler ++ w)) := by
      simp [kdfFrame, List.append_assoc]
    rw [this, List.drop_left' (by simp [ha, hfp])]
  have hdrop1024 : (a ++ (kdfFrame filler ++ w)).drop (gap + wrapperLength) = w := by
    have : a ++ (kdfFrame filler ++ w) = (a ++ kdfFrame filler) ++ w := by
      simp [List.append_assoc]
    rw [this, List.drop_left' (by simp [ha, length_kdfFrame filler hf, wrapperLength])]
  rw [hdrop, hdrop4, hdrop1024]
  rw [show kdfFrame filler ++ w = fingerprint ++ (header ++ filler ++ w) by
    simp [kdfFrame, List.append_assoc]]
  rw [List.take_left' hfp, List.take_left' hhd, if_pos rfl, if_pos rfl,
    List.take_left' ha]

/-- The frame-elision loop inverts `wrapAux` exactly. -/
theorem unwrapLoop_wrapAux (filler : List Nat) (hf : filler.length = 1015) :
    ∀ (n : Nat) (rest : List Nat), rest.length ≤ n →
      unwrapLoop wrapperFrameLength (wrapAux filler rest) = .ok rest := by
  intro n
  induction n with
  | zero =>
    intro rest h
    have : rest = [] := List.eq_nil_of_length_eq_zero (Nat.le_zero.mp h)
    subst this
    rw [wrapAux, dif_neg (by simp [wrapperFrameLength])]
    exact unwrapLoop_small (by simp [wrapperFrameLength, wrapperLength])
  | succ n ih =>
    intro rest h
    rw [wrapAux]
    by_cases hc : wrapperFrameLength < rest.length
    · rw [dif_pos hc]
      have hta : (rest.take wrapperFrameLength).length = wrapperFrameLength :=
        List.length_take_of_le (Nat.le_of_lt hc)
      rw [List.append_assoc,
        unwrapLoop_frame_step wrapperFrameLength _ filler _ hta hf,
        ih (rest.drop wrapperFrameLength)
          (by simp only [List.length_drop]; simp only [wrapperFrameLength] at hc ⊢; omega)]
      simp [Except.map, List.take_append_drop]
    · rw [dif_neg hc]
      exact unwrapLoop_small (by simp only [wrapperLength]; omega)

/-- Descrambling round-trip, general form: any plain file that starts
with the SQLite signature and has at least `wrapperOffset` bytes is
reproduced exactly by `unwrapKdf` after synthetic frames are
re-inserted at the documented offsets. -/
theorem unwrapKdf_wrapKdf (filler plain : List Nat) (hf : filler.length = 1015)
    (hsig : plain.take 16 = signature) (hlen : wrapperOffset ≤ plain.length) :
    unwrapKdf (wrapKdf filler plain) = .ok plain := by
  have hp1 : (plain.take wrapperOffset).length = wrapperOffset :=
    List.length_take_of_le hlen
  have hlenw : (wrapKdf filler plain).length
      = 2 * wrapperOffset + (wrapAux filler (plain.drop wrapperOffset)).length := by
    simp only [wrapKdf, List.length_append, length_kdfFrame filler hf, hp1]
    simp only [wrapperOffset]
    try omega
  rw [unwrapKdf, if_neg (by rw [hlenw]; simp [signature, wrapperOffset]; omega)]
  have htake : (wrapKdf filler plain).take signature.length = signature := by
    have h16 : (16 : Nat) ≤ (plain.take wrapperOffset).length := by
      rw [hp1]; simp [wrapperOffset]
    rw [show signature.length = 16 by decide, wrapKdf, List.append_assoc,
      List.take_append_of_le_length h16, List.take_take,
      Nat.min_eq_left (by simp [wrapperOffset]), hsig]
  rw [if_neg (by simp [htake]), wrapKdf, List.append_assoc,
    unwrapLoop_frame_step wrapperOffset _ filler _ hp1 hf,
    unwrapLoop_wrapAux filler hf (plain.drop wrapperOffset).length _ (Nat.le_refl _)]
  simp [Except.map, List.take_append_drop]

theorem mem_loopOffsets_bound :
    ∀ (k n gap c : Nat), n ≤ k → c ∈ loopOffsets gap n →
      gap ≤ c ∧ c + wrapperLength ≤ n := by
  intro k
  induction k with
  | zero =>
    intro n gap c hn hc
    have hW : wrapperLength = 1024 := rfl
    rw [loopOffsets, dif_neg (by omega)] at hc
    simp at hc
  | succ k ih =>
    intro n gap c hn hc
    have hW : wrapperLength = 1024 := rfl
    rw [loopOffsets] at hc
    by_cases h : gap + wrapperLength ≤ n
    · rw [dif_pos h] at hc
      rcases List.mem_cons.mp hc with rfl | hc'
      · exact ⟨Nat.le_refl _, h⟩
      · rcases List.mem_map.mp hc' with ⟨c', hm, rfl⟩
        have hb := ih (n - (gap + wrapperLength)) wrapperFrameLength c' (by omega) hm
        omega
    · rw [dif_neg h] at hc
      simp at hc

/-- Corrupting one byte inside the fingerprint/header window of any
visited frame makes the loop fail, provided the uncorrupted input made
the loop succeed. -/
theorem unwrapLoop_flip :
    ∀ (k : Nat) (d : List Nat) (gap : Nat) (out : List Nat),
      d.length ≤ k → unwrapLoop gap d = .ok out →
      ∀ c ∈ loopOffsets gap d.length, ∀ j, j < 9 → ∀ b, b ≠ d.getD (c + j) 0 →
      ∃ e, unwrapLoop gap (d.set (c + j) b) = .error e := by
  intro k
  induction k with
  | zero =>
    intro d gap out hn hok c hc j hj b hb
    have hW : wrapperLength = 1024 := rfl
    rw [loopOffsets, dif_neg (by omega)] at hc
    simp at hc
  | succ k ih =>
    intro d gap out hn hok c hc j hj b hb
    have hW : wrapperLength = 1024 := rfl
    rw [loopOffsets] at hc
    by_cases h : gap + wrapperLength ≤ d.length
    case neg => rw [dif_neg h] at hc; simp at hc
    rw [dif_pos h] at hc
    rw [unwrapLoop, dif_pos h] at hok
    by_cases hfp : (d.drop gap).take 4 = fingerprint
    case neg => rw [if_neg hfp] at hok; simp at hok
    rw [if_pos hfp] at hok
    by_cases hhd : (d.drop (gap + 4)).take 5 = header
    case neg => rw [if_neg hhd] at hok; simp at hok
    rw [if_pos hhd] at hok
    rcases hrec : unwrapLoop wrapperFrameLength (d.drop (gap + wrapperLength)) with e | out'
    · rw [hrec] at hok; simp [Except.map] at hok
    have hlen' : (d.set (c + j) b).length = d.length := List.length_set d _ _
    rcases List.mem_cons.mp hc with rfl | hc'
    · -- the corrupted frame is the one checked by this iteration
      have hcj : c + j < d.length := by omega
      have hcond' : c + wrapperLength ≤ (d.set (c + j) b).length := by
        rw [hlen']; exact h
      by_cases hj4 : j < 4
      · -- the flip lands in the fingerprint window
        refine ⟨.badFingerprint (((d.set (c + j) b).drop c).take 4), ?_⟩
        rw [unwrapLoop, dif_pos hcond', if_neg ?_]
        intro heq
        have h1 : (((d.set (c + j) b).drop c).take 4)[j]? = some b := by
          rw [List.getElem?_take_of_lt hj4, List.getElem?_drop,
            List.getElem?_set_self (by omega)]
        have h2 : ((d.drop c).take 4)[j]? = d[c + j]? := by
          rw [List.getElem?_take_of_lt hj4, List.getElem?_drop]
        rw [heq] at h1
        rw [hfp] at h2
        rw [h1] at h2
        apply hb
        rw [List.getD_eq_getElem?_getD, ← h2]
        rfl
      · -- the flip lands in the header window
        have hj4' : 4 ≤ j := Nat.le_of_not_lt hj4
        refine ⟨.badHeader (((d.set (c + j) b).drop (c + 4)).take 5), ?_⟩
        have hfp' : ((d.set (c + j) b).drop c).take 4 = (d.drop c).take 4 := by
          apply List.ext_getElem?
          intro i
          by_cases hi : i < 4
          · rw [List.getElem?_take_of_lt hi, List.getElem?_take_of_lt hi,
              List.getElem?_drop, List.getElem?_drop,
              List.getElem?_set_ne (by omega)]
          · rw [List.getElem?_take_eq_none (by omega),
              List.getElem?_take_eq_none (by omega)]
        rw [unwrapLoop, dif_pos hcond', if_pos (by rw [hfp']; exact hfp), if_neg ?_]
        intro heq
        have h1 : (((d.set (c + j) b).drop (c + 4)).take 5)[j - 4]? = some b := by
          rw [List.getElem?_take_of_lt (by omega), List.getElem?_drop,
            show c + 4 + (j - 4) = c + j by omega,
            List.getElem?_set_self (by omega)]
        have h2 : ((d.drop (c + 4)).take 5)[j - 4]? = d[c + j]? := by
          rw [List.getElem?_take_of_lt (by omega), List.getElem?_drop,
            show c + 4 + (j - 4) = c + j by omega]
        rw [heq] at h1
        rw [hhd] at h2
        rw [h1] at h2
        apply hb
        rw [List.getD_eq_getElem?_getD, ← h2]
        rfl
    · -- the corrupted frame belongs to a later iteration
      rcases List.mem_map.mp hc' with ⟨c', hmem, rfl⟩
      have hbound := mem_loopOffsets_bound (d.length - (gap + wrapperLength))
        (d.length - (gap + wrapperLength)) wrapperFrameLength c' (Nat.le_refl _) hmem
      have hcj : gap + wrapperLength ≤ c' + (gap + wrapperLength) + j := by omega
      have hfp' : ((d.set (c' + (gap + wrapperLength) + j) b).drop gap).take 4
          = (d.drop gap).take 4 := by
        apply List.ext_getElem?
        intro i
        by_cases hi : i < 4
        · rw [List.getElem?_take_of_lt hi, List.getElem?_take_of_lt hi,
            List.getElem?_drop, List.getElem?_drop,
            List.getElem?_set_ne (by omega)]
        · rw [List.getElem?_take_eq_none (by omega),
            List.getElem?_take_eq_none (by omega)]
      have hhd' : ((d.set (c' + (gap + wrapperLength) + j) b).drop (gap + 4)).take 5
          = (d.drop (gap + 4)).take 5 := by
        apply List.ext_getElem?
        intro i
        by_cases hi : i < 5
        · rw [List.getElem?_take_of_lt hi, List.getElem?_take_of_lt hi,
            List.getElem?_drop, List.getElem?_drop,
            List.getElem?_set_ne (by omega)]
        · rw [List.getElem?_take_eq_none (by omega),
            List.getElem?_take_eq_none (by omega)]
      have hdropset : (d.set (c' + (gap + wrapperLength) + j) b).drop (gap + wrapperLength)
          = (d.drop (gap + wrapperLength)).set (c' + j) b := by
        rw [List.set_drop,
          show gap + wrapperLength + (c' + j) = c' + (gap + wrapperLength) + j by omega]
      have hgd : (d.drop (gap + wrapperLength)).getD (c' + j) 0
          = d.getD (c' + (gap + wrapperLength) + j) 0 := by
        rw [List.getD_eq_getElem?_getD, List.getD_eq_getElem?_getD,
          List.getElem?_drop,
          show gap + wrapperLength + (c' + j) = c' + (gap + wrapperLength) + j by omega]
      have hmem' : c' ∈ loopOffsets wrapperFrameLength (d.drop (gap + wrapperLength)).length := by
        rw [List.length_drop]; exact hmem
      rcases ih (d.drop (gap + wrapperLength)) wrapperFrameLength out'
          (by rw [List.length_drop]; omega) hrec c' hmem' j hj b
          (by rw [hgd]; exact hb) with ⟨e, he⟩
      refine ⟨e, ?_⟩
      rw [unwrapLoop, dif_pos (by rw [List.length_set]; exact h),
        hfp', hhd', if_pos hfp, if_pos hhd, hdropset, he]
      rfl

/-- Lifting the flip lemma to `unwrapKdf`: for any input the descrambler
accepts, corrupting any byte of any frame's fingerprint or header makes
it fail with an error (it never returns output). -/
theorem unwrapKdf_flip (d out : List Nat) (hok : unwrapKdf d = .ok out)
    (c : Nat) (hc : c ∈ frameOffsets d.length) (j : Nat) (hj : j < 9)
    (b : Nat) (hb : b ≠ d.getD (c + j) 0) :
    ∃ e, unwrapKdf (d.set (c + j) b) = .error e := by
  have hW : wrapperLength = 1024 := rfl
  have hO : wrapperOffset = 1024 := rfl
  rw [unwrapKdf] at hok
  by_cases hL : d.length ≤ signature.length ∨ d.length < 2 * wrapperOffset
  case pos => rw [if_pos hL] at hok; simp at hok
  rw [if_neg hL] at hok
  by_cases hs : d.take signature.length ≠ signature
  case pos => rw [if_pos hs] at hok; simp at hok
  rw [if_neg hs] at hok
  have hcb := mem_loopOffsets_bound d.length d.length wrapperOffset c (Nat.le_refl _) hc
  have hlen' : (d.set (c + j) b).length = d.length := List.length_set d _ _
  have htk : (d.set (c + j) b).take signature.length = d.take signature.length := by
    rw [List.set_take]
    apply List.set_eq_of_length_le
    have : (d.take signature.length).length ≤ signature.length := by
      rw [List.length_take]; omega
    have hsl : signature.length = 16 := by decide
    omega
  rcases unwrapLoop_flip d.length d wrapperOffset out (Nat.le_refl _) hok c hc j hj b hb
    with ⟨e, he⟩
  refine ⟨e, ?_⟩
  rw [unwrapKdf, if_neg (by rw [hlen']; exact hL), if_neg (by rw [htk]; exact hs), he]

/-! ## Concrete evaluations of the descrambler

The 1024-byte geometry makes the concrete inputs too long for brute
evaluation, so these facts are derived through the append/length
lemmas instead. -/

theorem plainW_length : plainW.length = 1024 := by
  have h : signature.length = 16 := rfl
  simp [plainW, h]

theorem fillerW_length : fillerW.length = 1015 := by
  simp [fillerW]

theorem plainW_take16 : plainW.take 16 = signature := by
  rw [plainW]
  exact List.take_left' rfl

theorem wrapKdf_dataW : wrapKdf fillerW plainW = dataW := by
  have hd : plainW.drop wrapperOffset = [] :=
    List.drop_eq_nil_of_le (by rw [plainW_length]; decide)
  have ht : plainW.take wrapperOffset = plainW :=
    List.take_of_length_le (by rw [plainW_length]; decide)
  rw [wrapKdf, hd, ht, wrapAux, dif_neg (by decide)]
  simp [dataW]

theorem dataW_length : dataW.length = 2048 := by
  rw [dataW, List.length_append, plainW_length,
    length_kdfFrame fillerW fillerW_length]

theorem dataW_unwrap : unwrapKdf dataW = .ok plainW := by
  rw [← wrapKdf_dataW]
  exact unwrapKdf_wrapKdf fillerW plainW fillerW_length plainW_take16
    (by rw [plainW_length]; decide)

theorem frameOffsets_2048 : frameOffsets 2048 = [1024] := by
  rw [frameOffsets, loopOffsets, dif_pos (by decide), loopOffsets, dif_neg (by decide)]
  rfl

theorem dataW_getD_1024 : dataW.getD 1024 0 = 0xfa := by
  rw [dataW, List.getD_eq_getElem?_getD,
    List.getElem?_append_right (by rw [plainW_length]), plainW_length]
  rfl

/-- The scrambled input with the first fingerprint byte of the frame at
offset 1024 flipped (`0xfa ↦ 0`) decomposes as the plain kilobyte
followed by the corrupted frame. -/
theorem dataW_set_decomp :
    dataW.set 1024 0 = plainW ++ ([0, 0x50, 0x0a, 0x5f] ++ (header ++ fillerW)) := by
  rw [dataW, List.set_append_right _ _ (by rw [plainW_length]), plainW_length]
  rw [show (1024 - 1024 : Nat) = 0 from rfl, kdfFrame, List.append_assoc,
    List.set_append_left _ _ (by decide)]
  rfl

/-- Flipping the first fingerprint byte (`0xfa ↦ 0`) of the frame at
offset 1024 makes `unwrapKdf` fail with an error that carries the four
offending bytes. -/
theorem dataW_corrupt_eval :
    unwrapKdf (dataW.set 1024 0) = .error (.badFingerprint [0, 0x50, 0x0a, 0x5f]) := by
  rw [dataW_set_decomp]
  have hL : (plainW ++ ([0, 0x50, 0x0a, 0x5f] ++ (header ++ fillerW))).length = 2048 := by
    have h : ([0, 0x50, 0x0a, 0x5f] ++ (header ++ fillerW)).length = 1024 := by
      simp [header, fillerW]
    rw [List.length_append, plainW_length, h]
  have htk : (plainW ++ ([0, 0x50, 0x0a, 0x5f] ++ (header ++ fillerW))).take signature.length
      = signature := by
    rw [show signature.length = 16 from rfl,
      List.take_append_of_le_length (by rw [plainW_length]; omega), plainW_take16]
  have hdr : (plainW ++ ([0, 0x50, 0x0a, 0x5f] ++ (header ++ fillerW))).drop wrapperOffset
      = [0, 0x50, 0x0a, 0x5f] ++ (header ++ fillerW) :=
    List.drop_left' plainW_length
  rw [unwrapKdf, if_neg (by rw [hL]; decide), if_neg (fun hne => hne htk), unwrapLoop,
    dif_pos (by rw [hL]; decide), hdr,
    List.take_left' (show ([0, 0x50, 0x0a, 0x5f] : List Nat).length = 4 from rfl),
    if_neg (by decide)]

/-! ## Claim C3 -/

/-- C3: descrambling round-trip.  For every well-formed plain database
file (beginning with the 16-byte signature, and long enough to reach the
first documented frame offset), re-inserting synthetic 1024-byte
obfuscation frames carrying the fixed 4-byte fingerprint followed by the
fixed 5-byte header at the documented offsets (after the first 1024
plain bytes and then after each subsequent 1 MiB of plain data) and then
running `unwrapKdf` reproduces the original bytes exactly. -/
theorem C3_descrambling_round_trip (filler plain : List Nat)
    (hf : filler.length = 1015) (hsig : plain.take 16 = signature)
    (hlen : wrapperOffset ≤ plain.length) :
    unwrapKdf (wrapKdf filler plain) = .ok plain :=
  unwrapKdf_wrapKdf filler plain hf hsig hlen

/-- Witness for C3 at a concrete 1024-byte plain file. -/
theorem C3_descrambling_round_trip_witness :
    fillerW.length = 1015 ∧ plainW.take 16 = signature ∧
    wrapperOffset ≤ plainW.length ∧
    unwrapKdf (wrapKdf fillerW plainW) = .ok plainW :=
  ⟨fillerW_length, plainW_take16, by rw [plainW_length]; decide,
   C3_descrambling_round_trip fillerW plainW fillerW_length plainW_take16
     (by rw [plainW_length]; decide)⟩

/-! ## Claim C4 -/

/-- C4 counterexample: the claim says a flipped fingerprint/header byte
produces "a fatal error naming that frame's offset".  Flipping the first
fingerprint byte of the frame at offset 1024 produces the error whose
message (per the `fmt.Errorf` format string of convert.go line 108)
names the four offending bytes and contains neither the decimal `1024`
nor the hex digits `400` of the frame's offset. -/
theorem C4_error_without_offset_cex :
    unwrapKdf (dataW.set 1024 0) = .error (.badFingerprint [0, 0x50, 0x0a, 0x5f]) ∧
    1024 ∈ frameOffsets (dataW.set 1024 0).length ∧
    renderKdfError (.badFingerprint [0, 0x50, 0x0a, 0x5f])
      = "unexpected fingerprint: [0 80 10 95]" ∧
    ¬ ("1024".toList <:+: "unexpected fingerprint: [0 80 10 95]".toList) ∧
    ¬ ("400".toList <:+: "unexpected fingerprint: [0 80 10 95]".toList) :=
  ⟨dataW_corrupt_eval,
   by rw [List.length_set, dataW_length, frameOffsets_2048]; exact List.mem_singleton.mpr rfl,
   by decide, by decide, by decide⟩

/-- C4 (amended): for every scrambled input the descrambler accepts,
flipping any single byte inside an obfuscation frame's 4-byte
fingerprint or 5-byte header makes `unwrapKdf` fail with a fatal error
— it never silently produces an output file.  (The error carries the
offending bytes, not the frame's offset.) -/
theorem C4_descrambler_rejects_corruption (d out : List Nat)
    (hok : unwrapKdf d = .ok out)
    (c : Nat) (hc : c ∈ frameOffsets d.length) (j : Nat) (hj : j < 9)
    (b : Nat) (hb : b ≠ d.getD (c + j) 0) :
    ∃ e, unwrapKdf (d.set (c + j) b) = .error e :=
  unwrapKdf_flip d out hok c hc j hj b hb

/-- Witness for the amended C4 at the concrete scrambled file, flipping
fingerprint byte 0 of the frame at offset 1024. -/
theorem C4_descrambler_rejects_corruption_witness :
    unwrapKdf dataW = .ok plainW ∧ 1024 ∈ frameOffsets dataW.length ∧
    (0 : Nat) < 9 ∧ (0 : Nat) ≠ dataW.getD (1024 + 0) 0 ∧
    ∃ e, unwrapKdf (dataW.set (1024 + 0) 0) = .error e :=
  ⟨dataW_unwrap,
   by rw [dataW_length, frameOffsets_2048]; exact List.mem_singleton.mpr rfl,
   by decide,
   by rw [show (1024 + 0 : Nat) = 1024 from rfl, dataW_getD_1024]; decide,
   C4_descrambler_rejects_corruption dataW plainW dataW_unwrap 1024
     (by rw [dataW_length, frameOffsets_2048]; exact List.mem_singleton.mpr rfl)
     0 (by decide) 0
     (by rw [show (1024 + 0 : Nat) = 1024 from rfl, dataW_getD_1024]; decide)⟩

/-! ## Claim C2 -/

/-- C2: for every input environment (any unpack, file, database and
decode outcomes), `ConvertFromKpf` returns a non-nil error; there is no
execution path reporting success — the all-stages-succeed path ends in
the fixed `FIX ME DONE` placeholder error of convert.go line 456. -/
theorem C2_convertFromKpf_never_succeeds (w : World) :
    ∃ e, convertFromKpf w = .error e := by
  unfold convertFromKpf
  simp only [bind, Except.bind, Except.mapError]
  repeat' split
  all_goals exact ⟨_, rfl⟩

/-! ## Schema validator lemmas -/

/-- A row the validator accepts: its definition text is in the catalog
and maps to its stored name. -/
abbrev goodRow (r : String × String) : Prop := knowns.lookup r.2 = some r.1

theorem schemaLoop_append_good (pre : List (String × String)) :
    ∀ (l : List (String × String)) (acc : List String), (∀ r ∈ pre, goodRow r) →
      schemaLoop (pre ++ l) acc = schemaLoop l (acc ++ pre.map (·.1)) := by
  induction pre with
  | nil => intro l acc _; simp
  | cons r pre ih =>
    intro l acc hpre
    obtain ⟨tbl, schema⟩ := r
    have h1 : knowns.lookup schema = some tbl := hpre _ (List.mem_cons_self _ _)
    rw [List.cons_append, schemaLoop, h1]
    simp only [if_pos rfl]
    rw [ih l (acc ++ [tbl]) (fun r hr => hpre r (List.mem_cons_of_mem _ hr))]
    simp

theorem schemaLoop_ok_names :
    ∀ (rows : List (String × String)) (acc out : List String),
      schemaLoop rows acc = .ok out → out = acc ++ rows.map (·.1) := by
  intro rows
  induction rows with
  | nil =>
    intro acc out h
    rw [schemaLoop] at h
    by_cases he : (mustHaveList.filter (fun k => !acc.contains k)).isEmpty
    · rw [if_pos he] at h
      simp at h
      simp [h]
    · rw [if_neg he] at h
      simp at h
  | cons r rest ih =>
    intro acc out h
    obtain ⟨tbl, schema⟩ := r
    rw [schemaLoop] at h
    rcases hl : knowns.lookup schema with _ | name
    · rw [hl] at h; simp at h
    · simp only [hl] at h
      by_cases hn : name = tbl
      · rw [if_pos hn] at h
        have := ih (acc ++ [tbl]) out h
        simp [this]
      · rw [if_neg hn] at h; simp at h

/-- Under all-recognized rows, `readSchema` reduces to the must-have
check over the collected names. -/
theorem readSchema_good_form (rows : List (String × String))
    (hrows : ∀ r ∈ rows, goodRow r) :
    readSchema rows =
      (if (mustHaveList.filter (fun k => !(rows.map (·.1)).contains k)).isEmpty
       then .ok (rows.map (·.1))
       else .error (.missingTables
         (mustHaveList.filter (fun k => !(rows.map (·.1)).contains k)))) := by
  have h1 : schemaLoop (rows ++ []) [] = schemaLoop [] ([] ++ rows.map (·.1)) :=
    schemaLoop_append_good rows [] [] hrows
  rw [List.append_nil] at h1
  rw [readSchema, h1, schemaLoop]
  simp

/-! ## Claim C6 -/

/-- C6: schema validation is exact-match.  For an enumerated table whose
definition text is not character-for-character a key of the catalog,
`readSchema` fails with the "unexpected database table" error (whatever
recognized rows precede it); for a recognized definition whose canonical
name differs from the stored name it fails with the name-mismatch error;
otherwise every table's name is added to the verified set. -/
theorem C6_schema_exact_match (pre : List (String × String))
    (hpre : ∀ r ∈ pre, goodRow r) (tbl schema : String)
    (rest : List (String × String)) :
    (knowns.lookup schema = none →
      readSchema (pre ++ (tbl, schema) :: rest) = .error (.unexpectedTable tbl schema)) ∧
    (∀ name, knowns.lookup schema = some name → name ≠ tbl →
      readSchema (pre ++ (tbl, schema) :: rest) = .error (.unexpectedName tbl schema)) ∧
    (∀ rows out, readSchema rows = .ok out → out = rows.map (·.1)) := by
  refine ⟨?_, ?_, ?_⟩
  · intro hnone
    rw [readSchema, schemaLoop_append_good pre _ [] hpre, schemaLoop, hnone]
  · intro name hsome hne
    rw [readSchema, schemaLoop_append_good pre _ [] hpre, schemaLoop]
    simp only [hsome]
    rw [if_neg hne]
  · intro rows out h
    simpa using schemaLoop_ok_names rows [] out h

/-- Witness for C6: a one-space suffix makes the `fragments` definition
unrecognized; the exact definition with a misspelled stored name is a
name mismatch; the full catalog database verifies all seven names. -/
theorem C6_schema_exact_match_witness :
    (knowns.lookup "CREATE TABLE fragments(id char(40), payload_type char(10), payload_value blob, primary key (id)) " = none ∧
      readSchema [("fragments", "CREATE TABLE fragments(id char(40), payload_type char(10), payload_value blob, primary key (id)) ")]
        = .error (.unexpectedTable "fragments" "CREATE TABLE fragments(id char(40), payload_type char(10), payload_value blob, primary key (id)) ")) ∧
    (knowns.lookup "CREATE TABLE fragments(id char(40), payload_type char(10), payload_value blob, primary key (id))" = some "fragments" ∧
      readSchema [("fragment", "CREATE TABLE fragments(id char(40), payload_type char(10), payload_value blob, primary key (id))")]
        = .error (.unexpectedName "fragment" "CREATE TABLE fragments(id char(40), payload_type char(10), payload_value blob, primary key (id))")) ∧
    (readSchema masterRowsW = .ok (masterRowsW.map (·.1))) := by
  refine ⟨⟨by decide, ?_⟩, ⟨by decide, ?_⟩, by decide⟩
  · exact (C6_schema_exact_match [] (by simp) "fragments" _ []).1 (by decide)
  · exact (C6_schema_exact_match [] (by simp) "fragment" _ []).2.1 "fragments"
      (by decide) (by decide)

/-! ## Claim C7 -/

/-- C7: must-have enforcement.  Over a database all of whose enumerated
tables are recognized, `readSchema` fails if and only if some must-have
table (`capabilities` or `fragments`) was not seen; the error names
exactly the absent must-have tables; and a concrete database missing
only `fragments` (with an optional table present) fails naming exactly
`fragments`. -/
theorem C7_must_have_enforcement (rows : List (String × String))
    (hrows : ∀ r ∈ rows, goodRow r) :
    ((∃ e, readSchema rows = .error e) ↔ ∃ t ∈ mustHaveList, t ∉ rows.map (·.1)) ∧
    (∀ absent, readSchema rows = .error (.missingTables absent) →
      absent = mustHaveList.filter (fun t => !(rows.map (·.1)).contains t)) ∧
    readSchema masterRowsNoFragW = .error (.missingTables ["fragments"]) := by
  have hform := readSchema_good_form rows hrows
  refine ⟨?_, ?_, by decide⟩
  · constructor
    · rintro ⟨e, he⟩
      rw [hform] at he
      by_cases hemp :
          (mustHaveList.filter (fun k => !(rows.map (·.1)).contains k)).isEmpty
      · rw [if_pos hemp] at he; simp at he
      · have hne : mustHaveList.filter (fun k => !(rows.map (·.1)).contains k) ≠ [] := by
          simpa [List.isEmpty_iff] using hemp
        obtain ⟨t, ht⟩ := List.exists_mem_of_ne_nil _ hne
        have hmem := List.mem_filter.mp ht
        refine ⟨t, hmem.1, ?_⟩
        simpa [List.contains] using hmem.2
    · rintro ⟨t, htm, htn⟩
      rw [hform]
      have htf : t ∈ mustHaveList.filter (fun k => !(rows.map (·.1)).contains k) :=
        List.mem_filter.mpr ⟨htm, by simpa [List.contains] using htn⟩
      rw [if_neg (fun hh => (List.ne_nil_of_mem htf) (List.isEmpty_iff.mp hh))]
      exact ⟨_, rfl⟩
  · intro absent habs
    rw [hform] at habs
    by_cases hemp :
        (mustHaveList.filter (fun k => !(rows.map (·.1)).contains k)).isEmpty
    · rw [if_pos hemp] at habs; simp at habs
    · rw [if_neg hemp] at habs
      simp only [Except.error.injEq, SchemaError.missingTables.injEq] at habs
      exact habs.symm

/-- Witness for C7 at the concrete database missing only `fragments`. -/
theorem C7_must_have_enforcement_witness :
    (∀ r ∈ masterRowsNoFragW, goodRow r) ∧
    (((∃ e, readSchema masterRowsNoFragW = .error e) ↔
        ∃ t ∈ mustHaveList, t ∉ masterRowsNoFragW.map (·.1)) ∧
      (∀ absent, readSchema masterRowsNoFragW = .error (.missingTables absent) →
        absent = mustHaveList.filter
          (fun t => !(masterRowsNoFragW.map (·.1)).contains t)) ∧
      readSchema masterRowsNoFragW = .error (.missingTables ["fragments"])) :=
  ⟨by decide, C7_must_have_enforcement masterRowsNoFragW (by decide)⟩

/-! ## Fragment-properties reader lemmas -/

theorem propsLoop_ok_of_legal :
    ∀ (rows : List (String × String × String)) (m : String → Option String),
      (∀ r ∈ rows, r.2.1 = "child" ∨ r.2.1 = "element_type") →
      ∃ m', propsLoop rows m = .ok m' := by
  intro rows
  induction rows with
  | nil => intro m _; exact ⟨m, rfl⟩
  | cons r rest ih =>
    intro m hk
    obtain ⟨id, key, value⟩ := r
    rcases hk _ (List.mem_cons_self _ _) with hc | he
    · simp only at hc
      rw [propsLoop, if_pos hc]
      exact ih m (fun r hr => hk r (List.mem_cons_of_mem _ hr))
    · simp only at he
      by_cases hc : key = "child"
      · rw [propsLoop, if_pos hc]
        exact ih m (fun r hr => hk r (List.mem_cons_of_mem _ hr))
      · rw [propsLoop, if_neg hc, if_pos he]
        exact ih _ (fun r hr => hk r (List.mem_cons_of_mem _ hr))

theorem propsLoop_error_first :
    ∀ (pre : List (String × String × String)) (id key value : String)
      (rest : List (String × String × String)) (m : String → Option String),
      (∀ r ∈ pre, r.2.1 = "child" ∨ r.2.1 = "element_type") →
      key ≠ "child" → key ≠ "element_type" →
      propsLoop (pre ++ (id, key, value) :: rest) m = .error (.unknownKey key id value) := by
  intro pre
  induction pre with
  | nil =>
    intro id key value rest m _ h1 h2
    rw [List.nil_append, propsLoop, if_neg h1, if_neg h2]
  | cons r pre ih =>
    intro id key value rest m hk h1 h2
    obtain ⟨i, k, v⟩ := r
    have hrest : ∀ r ∈ pre, r.2.1 = "child" ∨ r.2.1 = "element_type" :=
      fun r hr => hk r (List.mem_cons_of_mem _ hr)
    rcases hk _ (List.mem_cons_self _ _) with hc | he
    · simp only at hc
      rw [List.cons_append, propsLoop, if_pos hc]
      exact ih id key value rest m hrest h1 h2
    · simp only at he
      by_cases hc : k = "child"
      · rw [List.cons_append, propsLoop, if_pos hc]
        exact ih id key value rest m hrest h1 h2
      · rw [List.cons_append, propsLoop, if_neg hc, if_pos he]
        exact ih id key value rest _ hrest h1 h2

theorem propsLoop_ok_lookup :
    ∀ (rows : List (String × String × String)) (m0 m : String → Option String),
      propsLoop rows m0 = .ok m → ∀ id,
        m id = ((rows.filter (fun r => r.1 == id && r.2.1 == "element_type")).map
          (fun r => r.2.2)).foldl (fun _ v => some v) (m0 id) := by
  intro rows
  induction rows with
  | nil =>
    intro m0 m h id
    rw [propsLoop] at h
    simp at h
    simp [h]
  | cons r rest ih =>
    intro m0 m h id
    obtain ⟨i, k, v⟩ := r
    rw [propsLoop] at h
    by_cases hc : k = "child"
    · subst hc
      rw [if_pos rfl] at h
      rw [ih m0 m h id]
      simp only [List.filter_cons]
      rw [if_neg (by simp)]
    · by_cases he : k = "element_type"
      · subst he
        rw [if_neg hc, if_pos rfl] at h
        have hrec := ih _ m h id
        by_cases hid : i = id
        · subst hid
          rw [hrec, if_pos rfl]
          simp only [List.filter_cons]
          rw [if_pos (by simp)]
          simp
        · rw [hrec, if_neg (fun hh => hid hh.symm)]
          simp only [List.filter_cons]
          rw [if_neg (by simp [hid])]
      · rw [if_neg hc, if_neg he] at h
        simp at h

/-! ## Claim C8 -/

/-- C8: for every row `(id, key, value)` of the `fragment_properties`
table, `readFragmentProperties` ignores the row when the key is `child`,
records the value under the id in the element-type mapping when the key
is `element_type` (later rows overwriting earlier ones, as the Go map
write does), and returns the fatal "unknown fragment property key" error
exactly when some row carries any other key — the first such row names
the error. -/
theorem C8_fragment_properties (tables : List String)
    (htab : tables.contains "fragment_properties" = true)
    (rows : List (String × String × String)) :
    ((∀ r ∈ rows, r.2.1 = "child" ∨ r.2.1 = "element_type") →
      ∃ m, readFragmentProperties tables rows = .ok m ∧
        ∀ id, m id = ((rows.filter (fun r => r.1 == id && r.2.1 == "element_type")).map
          (fun r => r.2.2)).foldl (fun _ v => some v) none) ∧
    (∀ pre id key value rest, rows = pre ++ (id, key, value) :: rest →
      (∀ r ∈ pre, r.2.1 = "child" ∨ r.2.1 = "element_type") →
      key ≠ "child" → key ≠ "element_type" →
      readFragmentProperties tables rows = .error (.unknownKey key id value)) := by
  have hopen : readFragmentProperties tables rows = propsLoop rows (fun _ => none) := by
    rw [readFragmentProperties, if_neg (by rw [htab]; decide)]
  constructor
  · intro hlegal
    obtain ⟨m, hm⟩ := propsLoop_ok_of_legal rows (fun _ => none) hlegal
    exact ⟨m, by rw [hopen]; exact hm, propsLoop_ok_lookup rows _ m hm⟩
  · intro pre id key value rest hrows hpre h1 h2
    rw [hopen, hrows]
    exact propsLoop_error_first pre id key value rest _ hpre h1 h2

/-- Witness for C8: a legal `child`/`element_type` table is read into
the expected mapping; a table with key `weird` fails naming that key. -/
theorem C8_fragment_properties_witness :
    (∃ m, readFragmentProperties ["fragment_properties"]
        [("a", "child", "x"), ("b", "element_type", "t")] = .ok m ∧
      ∀ id, m id = (((([("a", "child", "x"), ("b", "element_type", "t")] :
          List (String × String × String)).filter
            (fun r => r.1 == id && r.2.1 == "element_type")).map
          (fun r => r.2.2)).foldl (fun _ v => some v) none)) ∧
    readFragmentProperties ["fragment_properties"]
        [("a", "child", "x"), ("q", "weird", "z")]
      = .error (.unknownKey "weird" "q" "z") :=
  ⟨(C8_fragment_properties ["fragment_properties"] (by decide) _).1
     (by decide),
   (C8_fragment_properties ["fragment_properties"] (by decide) _).2
     [("a", "child", "x")] "q" "weird" "z" [] rfl (by decide) (by decide) (by decide)⟩

/-! ## Symbol token lemmas -/

/-- A non-empty all-digit string in the signed-64-bit range parses to
its decimal value. -/
theorem parseInt64Chars_digits (ds : List Char) (h1 : ds ≠ [])
    (h2 : ds.all (·.isDigit) = true) (h3 : (digitsVal ds : Int) ≤ int64Max) :
    parseInt64Chars ds = some ((digitsVal ds : Int)) := by
  cases ds with
  | nil => exact absurd rfl h1
  | cons c t =>
    have hc : c.isDigit = true :=
      List.all_eq_true.mp h2 c (List.mem_cons_self _ _)
    have hplus : ¬(c = '+') := fun he => by rw [he] at hc; exact absurd hc (by decide)
    have hminus : ¬(c = '-') := fun he => by rw [he] at hc; exact absurd hc (by decide)
    rw [parseInt64Chars, if_neg hplus, if_neg hminus, parseDigits,
      if_pos ⟨h1, h2⟩]
    simp only [Option.bind_some, Option.some_bind]
    rw [if_pos h3]

/-- `createLocalSymbolToken` in literal-reference mode. -/
theorem createLocalSymbolToken_literal (ds : List Char) (h1 : ds ≠ [])
    (h2 : ds.all (·.isDigit) = true) (h3 : (digitsVal ds : Int) ≤ int64Max) :
    createLocalSymbolToken ⟨'$' :: ds⟩ = ⟨some ⟨'$' :: ds⟩, (digitsVal ds : Int)⟩ := by
  have h0 : createLocalSymbolToken ⟨'$' :: ds⟩ = (match parseInt64Chars ds with
      | some sid => ({ text := some ⟨'$' :: ds⟩, localSID := sid } : SymbolToken)
      | none => ⟨some ⟨'$' :: ds⟩, symbolIDUnknown⟩) := rfl
  rw [h0, parseInt64Chars_digits ds h1 h2 h3]

/-- `createLocalSymbolToken` on a `$`-string whose remainder does not
parse. -/
theorem createLocalSymbolToken_dollar_unparsable (cs : List Char)
    (hp : parseInt64Chars cs = none) :
    createLocalSymbolToken ⟨'$' :: cs⟩ = ⟨some ⟨'$' :: cs⟩, symbolIDUnknown⟩ := by
  have h0 : createLocalSymbolToken ⟨'$' :: cs⟩ = (match parseInt64Chars cs with
      | some sid => ({ text := some ⟨'$' :: cs⟩, localSID := sid } : SymbolToken)
      | none => ⟨some ⟨'$' :: cs⟩, symbolIDUnknown⟩) := rfl
  rw [h0, hp]

/-- `createLocalSymbolToken` on a string without the `$` prefix. -/
theorem createLocalSymbolToken_no_dollar (c : Char) (cs : List Char) (hc : c ≠ '$') :
    createLocalSymbolToken ⟨c :: cs⟩ = ⟨some ⟨c :: cs⟩, symbolIDUnknown⟩ := by
  rw [createLocalSymbolToken, if_neg (by simp [hc])]

/-- `createSymbolToken` in literal-reference mode, for any builder. -/
theorem createSymbolToken_literal (ds : List Char) (h1 : ds ≠ [])
    (h2 : ds.all (·.isDigit) = true) (h3 : (digitsVal ds : Int) ≤ int64Max)
    (stb : Option (String → Nat)) :
    createSymbolToken ⟨'$' :: ds⟩ stb = ⟨some ⟨'$' :: ds⟩, (digitsVal ds : Int)⟩ := by
  have h0 : createSymbolToken ⟨'$' :: ds⟩ stb = (match parseInt64Chars ds with
      | some sid => ({ text := some ⟨'$' :: ds⟩, localSID := sid } : SymbolToken)
      | none => ⟨some ⟨'$' :: ds⟩, symbolIDUnknown⟩) := rfl
  rw [h0, parseInt64Chars_digits ds h1 h2 h3]

/-- `createSymbolToken` on a `$`-string whose remainder does not parse,
for any builder. -/
theorem createSymbolToken_dollar_unparsable (cs : List Char)
    (hp : parseInt64Chars cs = none) (stb : Option (String → Nat)) :
    createSymbolToken ⟨'$' :: cs⟩ stb = ⟨some ⟨'$' :: cs⟩, symbolIDUnknown⟩ := by
  have h0 : createSymbolToken ⟨'$' :: cs⟩ stb = (match parseInt64Chars cs with
      | some sid => ({ text := some ⟨'$' :: cs⟩, localSID := sid } : SymbolToken)
      | none => ⟨some ⟨'$' :: cs⟩, symbolIDUnknown⟩) := rfl
  rw [h0, hp]

/-- `createSymbolToken` with no `$` prefix and a nil builder. -/
theorem createSymbolToken_no_dollar_nil_builder (c : Char) (cs : List Char)
    (hc : c ≠ '$') :
    createSymbolToken ⟨c :: cs⟩ none = ⟨some ⟨c :: cs⟩, symbolIDUnknown⟩ := by
  rw [createSymbolToken, if_neg (by simp [hc])]

/-! ## Claim C9 -/

theorem kfxLoop_lookup :
    ∀ (rows : List (Int × String)) (m0 : Int → Option SymbolToken) (e : Int),
      kfxLoop rows m0 e = ((rows.filter (fun r => r.1 == e)).map (fun r => r.2)).foldl
        (fun _ v => some (createLocalSymbolToken v)) (m0 e) := by
  intro rows
  induction rows with
  | nil => intro m0 e; simp [kfxLoop]
  | cons r rest ih =>
    intro m0 e
    obtain ⟨i, v⟩ := r
    rw [kfxLoop, ih]
    by_cases hie : i = e
    · subst hie
      simp only [List.filter_cons]
      rw [if_pos (by simp)]
      simp
    · simp only [List.filter_cons]
      rw [if_neg (fun hh => hie hh.symm)]
      rw [if_neg (fun hh => hie (by simpa using hh))]

/-- C9: the id-translation reader is never fatal on row content.  When
the `kfxid_translation` table is present, `readKfxIDTranslations`
returns the mapping that sends each eid to
`createLocalSymbolToken kfxid` of its (last) row; a `$<digits>` value in
the signed-64-bit range yields the literal-reference token with that
numeric id, and a value that cannot be parsed this way yields the token
with the "unknown" sentinel id (after a logged warning) — never an
error. -/
theorem C9_kfxid_reader_never_fatal (tables : List String)
    (htab : tables.contains "kfxid_translation" = true) (rows : List (Int × String)) :
    (∃ m, readKfxIDTranslations tables rows = .ok m ∧
      ∀ e, m e = ((rows.filter (fun r => r.1 == e)).map (fun r => r.2)).foldl
        (fun _ v => some (createLocalSymbolToken v)) none) ∧
    (∀ ds : List Char, ds ≠ [] → ds.all (·.isDigit) = true →
      (digitsVal ds : Int) ≤ int64Max →
      createLocalSymbolToken ⟨'$' :: ds⟩ = ⟨some ⟨'$' :: ds⟩, (digitsVal ds : Int)⟩) ∧
    (∀ cs : List Char, parseInt64Chars cs = none →
      createLocalSymbolToken ⟨'$' :: cs⟩ = ⟨some ⟨'$' :: cs⟩, symbolIDUnknown⟩) ∧
    (∀ (c : Char) (cs : List Char), c ≠ '$' →
      createLocalSymbolToken ⟨c :: cs⟩ = ⟨some ⟨c :: cs⟩, symbolIDUnknown⟩) := by
  refine ⟨?_, createLocalSymbolToken_literal, createLocalSymbolToken_dollar_unparsable,
    createLocalSymbolToken_no_dollar⟩
  refine ⟨kfxLoop rows (fun _ => none), ?_, fun e => kfxLoop_lookup rows _ e⟩
  rw [readKfxIDTranslations, if_neg (by rw [htab]; decide)]

/-- Witness for C9: one literal row, one unparsable row. -/
theorem C9_kfxid_reader_never_fatal_witness :
    (∃ m, readKfxIDTranslations ["kfxid_translation"] [(5, "$417"), (6, "oops")] = .ok m ∧
      ∀ e, m e = (((([(5, "$417"), (6, "oops")] : List (Int × String))).filter
        (fun r => r.1 == e)).map (fun r => r.2)).foldl
        (fun _ v => some (createLocalSymbolToken v)) none) ∧
    createLocalSymbolToken ⟨'$' :: ['4', '1', '7']⟩
      = ⟨some ⟨'$' :: ['4', '1', '7']⟩, ((417 : Nat) : Int)⟩ ∧
    createLocalSymbolToken ⟨'$' :: ['x']⟩ = ⟨some ⟨'$' :: ['x']⟩, symbolIDUnknown⟩ ∧
    createLocalSymbolToken ⟨'o' :: "ops".data⟩
      = ⟨some ⟨'o' :: "ops".data⟩, symbolIDUnknown⟩ := by
  have h := C9_kfxid_reader_never_fatal ["kfxid_translation"] (by decide)
    [(5, "$417"), (6, "oops")]
  refine ⟨h.1, ?_, ?_, ?_⟩
  · have := h.2.1 ['4', '1', '7'] (by decide) (by decide) (by decide)
    simpa using this
  · exact h.2.2.1 ['x'] (by decide)
  · exact h.2.2.2 'o' "ops".data (by decide)

/-! ## Claim C10 -/

/-- C10: literal-reference symbol construction.  For every string
`$<digits>` whose digits parse as a 64-bit integer `n`, both symbol
token constructors return a token whose numeric id equals `n`, with no
runtime enforcement of the shared table's maximum id (the statement is
universal in the digit string); any string that is neither `$<digits>`
nor handled by the builder mode resolves to the "unknown" sentinel
id. -/
theorem C10_literal_reference_tokens (ds : List Char) (h1 : ds ≠ [])
    (h2 : ds.all (·.isDigit) = true) (h3 : (digitsVal ds : Int) ≤ int64Max) :
    (∀ stb, createSymbolToken ⟨'$' :: ds⟩ stb
      = ⟨some ⟨'$' :: ds⟩, (digitsVal ds : Int)⟩) ∧
    createLocalSymbolToken ⟨'$' :: ds⟩ = ⟨some ⟨'$' :: ds⟩, (digitsVal ds : Int)⟩ ∧
    (∀ (cs : List Char) stb, parseInt64Chars cs = none →
      createSymbolToken ⟨'$' :: cs⟩ stb = ⟨some ⟨'$' :: cs⟩, symbolIDUnknown⟩) ∧
    (∀ (c : Char) (cs : List Char), c ≠ '$' →
      createSymbolToken ⟨c :: cs⟩ none = ⟨some ⟨c :: cs⟩, symbolIDUnknown⟩) :=
  ⟨fun stb => createSymbolToken_literal ds h1 h2 h3 stb,
   createLocalSymbolToken_literal ds h1 h2 h3,
   fun cs stb hp => createSymbolToken_dollar_unparsable cs hp stb,
   createSymbolToken_no_dollar_nil_builder⟩

/-- Witness for C10 at a 12-digit id far above any real shared-table
maximum, demonstrating the absence of a bound check. -/
theorem C10_literal_reference_tokens_witness :
    (∀ stb, createSymbolToken ⟨'$' :: "987654321987".data⟩ stb
      = ⟨some ⟨'$' :: "987654321987".data⟩, ((987654321987 : Nat) : Int)⟩) ∧
    createLocalSymbolToken ⟨'$' :: "987654321987".data⟩
      = ⟨some ⟨'$' :: "987654321987".data⟩, ((987654321987 : Nat) : Int)⟩ := by
  have h := C10_literal_reference_tokens "987654321987".data (by decide) (by decide)
    (by decide)
  exact ⟨by simpa using h.1, by simpa using h.2.1⟩

/-! ## Claim C5 -/

/-- C5: Phase A bootstrap consistency of `readFragments`.  Decoding the
shared symbol-table fragment must yield no value (a decoded value is
fatal); the symbol table must declare exactly two imports named `$ion`
and `YJ_symbols` in that order (any other count or name is fatal); and
the integer decoded from the `max_id` fragment must equal the symbol
table's max id: declared max id 42 against fragment value 43 fails with
the cross-validation error, while two equal values (both 42) pass. -/
theorem C5_symbol_bootstrap (b1 b2 : List Nat) (st : SymtabOutcome) (mo : MaxIDOutcome) :
    ((∀ e, st.decodeErr = some e → e.noInput = true) → st.decodeVal = true →
      readFragments (bootstrapDB b1 b2) (fun _ => st) (fun _ => mo)
        = .error .symtabValue) ∧
    ((∀ e, st.decodeErr = some e → e.noInput = true) → st.decodeVal = false →
      st.imports.length ≠ 2 →
      readFragments (bootstrapDB b1 b2) (fun _ => st) (fun _ => mo)
        = .error (.importsCount st.imports.length)) ∧
    ((∀ e, st.decodeErr = some e → e.noInput = true) → st.decodeVal = false →
      st.imports.length = 2 →
      (st.imports.getD 0 "" ≠ "$ion" ∨ st.imports.getD 1 "" ≠ "YJ_symbols") →
      readFragments (bootstrapDB b1 b2) (fun _ => st) (fun _ => mo)
        = .error .importsName) ∧
    readFragments (bootstrapDB b1 b2) (fun _ => symtabOutcomeW)
      (fun _ => maxIDOutcomeBadW) = .error (.maxIDMismatch 43 42) ∧
    readFragments (bootstrapDB b1 b2) (fun _ => symtabOutcomeW)
      (fun _ => maxIDOutcomeW) = .ok [] := by
  have hf1 : findFragRow (bootstrapDB b1 b2) "$ion_symbol_table" = some b1 := rfl
  have hf2 : findFragRow (bootstrapDB b1 b2) "max_id" = some b2 := rfl
  refine ⟨?_, ?_, ?_, ?_, ?_⟩
  · intro hdec hval
    have hc1 : (match st.decodeErr with | some e => !e.noInput | none => false) = false := by
      cases hde : st.decodeErr with
      | none => rfl
      | some e => simp [hdec e hde]
    simp only [readFragments, hf1, hf2]
    simp [hc1, hval]
  · intro hdec hval hlen
    have hc1 : (match st.decodeErr with | some e => !e.noInput | none => false) = false := by
      cases hde : st.decodeErr with
      | none => rfl
      | some e => simp [hdec e hde]
    simp only [readFragments, hf1, hf2]
    simp [hc1, hval, hlen]
  · intro hdec hval hlen hnames
    have hc1 : (match st.decodeErr with | some e => !e.noInput | none => false) = false := by
      cases hde : st.decodeErr with
      | none => rfl
      | some e => simp [hdec e hde]
    obtain ⟨a, b, hab⟩ := List.length_eq_two.mp hlen
    have hnames' : a ≠ "$ion" ∨ b ≠ "YJ_symbols" := by
      rcases hnames with hn | hn
      · exact Or.inl (by simpa [hab] using hn)
      · exact Or.inr (by simpa [hab] using hn)
    simp only [readFragments, hf1, hf2]
    rcases hnames' with hn | hn <;> simp [hc1, hval, hab, hn]
  · simp only [readFragments, hf1, hf2]
    decide
  · simp only [readFragments, hf1, hf2]
    decide

/-- Witness for C5, at concrete bootstrap payloads and outcomes. -/
theorem C5_symbol_bootstrap_witness :
    readFragments (bootstrapDB ionBVM [0x21, 0x2A])
      (fun _ => ⟨none, true, [], 0⟩) (fun _ => ⟨none, 0⟩) = .error .symtabValue ∧
    readFragments (bootstrapDB ionBVM [0x21, 0x2A])
      (fun _ => ⟨none, false, ["$ion"], 7⟩) (fun _ => ⟨none, 7⟩)
      = .error (.importsCount 1) ∧
    readFragments (bootstrapDB ionBVM [0x21, 0x2A])
      (fun _ => ⟨none, false, ["$ion", "wrong"], 7⟩) (fun _ => ⟨none, 7⟩)
      = .error .importsName ∧
    readFragments (bootstrapDB ionBVM [0x21, 0x2A])
      (fun _ => symtabOutcomeW) (fun _ => maxIDOutcomeBadW)
      = .error (.maxIDMismatch 43 42) ∧
    readFragments (bootstrapDB ionBVM [0x21, 0x2A])
      (fun _ => symtabOutcomeW) (fun _ => maxIDOutcomeW) = .ok [] := by
  refine ⟨?_, ?_, ?_,
    (C5_symbol_bootstrap ionBVM [0x21, 0x2A] symtabOutcomeW maxIDOutcomeBadW).2.2.2.1,
    (C5_symbol_bootstrap ionBVM [0x21, 0x2A] symtabOutcomeW maxIDOutcomeW).2.2.2.2⟩
  · exact (C5_symbol_bootstrap ionBVM [0x21, 0x2A] ⟨none, true, [], 0⟩ ⟨none, 0⟩).1
      (by simp) rfl
  · exact (C5_symbol_bootstrap ionBVM [0x21, 0x2A] ⟨none, false, ["$ion"], 7⟩
      ⟨none, 7⟩).2.1 (by simp) rfl (by decide)
  · exact (C5_symbol_bootstrap ionBVM [0x21, 0x2A] ⟨none, false, ["$ion", "wrong"], 7⟩
      ⟨none, 7⟩).2.2.1 (by simp) rfl rfl (by decide)

/-! ## Phase B row-loop characterization -/

/-- When no row takes a fatal path, the disabled Phase B loop returns
one fragment per successfully classified row, in row order. -/
theorem phaseBRows_ok (stb : Option (String → Nat))
    (readOf : String → List Nat → AnnotatedRead) :
    ∀ rows : List (String × String × List Nat),
      (∀ r ∈ rows, rowFatal readOf r = false) →
      phaseBRows stb readOf rows = .ok (rows.filterMap (classifyRow stb readOf)) := by
  intro rows
  induction rows with
  | nil => intro _; rfl
  | cons row rest ih =>
    intro hok
    obtain ⟨id, ptype, blob⟩ := row
    have hfat := hok _ (List.mem_cons_self _ _)
    have ihr := ih (fun r hr => hok r (List.mem_cons_of_mem _ hr))
    by_cases c1 : ptype = "blob"
    · subst c1
      by_cases c2 : blob.length = 0
      · simp [phaseBRows, classifyRow, c2, ihr]
      · by_cases c3 : ionBVM.isPrefixOf blob = true
        · by_cases c4 : blob = ionBVM
          · simp [phaseBRows, classifyRow, c2, c3, c4, ihr]
          · have hfat' : (if !(readOf id blob).nextOk then true
                else if (readOf id blob).annotsErr then true
                else if annotsSkip (readOf id blob) then false
                else if (readOf id blob).typeNone then false
                else match (readOf id blob).deref with
                  | none => true
                  | some _ => false) = false := by
              simpa [rowFatal, c2, c3, c4] using hfat
            by_cases n1 : (readOf id blob).nextOk
            case neg => simp [n1] at hfat'
            by_cases n2 : (readOf id blob).annotsErr
            case pos => simp [n1, n2] at hfat'
            by_cases n3 : annotsSkip (readOf id blob)
            · simp [phaseBRows, classifyRow, c2, c3, c4, n1, n2, n3, ihr]
            · by_cases n4 : (readOf id blob).typeNone
              · simp [phaseBRows, classifyRow, c2, c3, c4, n1, n2, n3, n4, ihr]
              · rcases hd : (readOf id blob).deref with _ | data
                · rw [if_neg (by simp [n1]), if_neg (by simp [n2]), if_neg (by simp [n3]),
                    if_neg (by simp [n4]), hd] at hfat'
                  simp at hfat'
                · simp [phaseBRows, classifyRow, c2, c3, c4, n1, n2, n3, n4, hd, ihr]
        · simp [phaseBRows, classifyRow, c2, c3, ihr]
    · by_cases c5 : ptype = "path"
      · simp [phaseBRows, classifyRow, c1, c5, ihr]
      · exfalso
        have : rowFatal readOf (id, ptype, blob) = true := by
          simp [rowFatal, c1, c5]
        rw [this] at hfat
        exact absurd hfat (by decide)

/-! ## Claim C1 -/

/-- C1 counterexample: the compiled `readFragments` never classifies any
non-bootstrap row — its Phase B exists only inside a block comment — so
on a database whose only extra row is `images/cover.jpg` with a
non-marker blob payload, the decoder's output fragment list is empty and
in particular contains no fragment with id `resource/images/cover.jpg`,
contradicting the claim. -/
theorem C1_phase_b_disabled_cex :
    readFragments fragRowsW (fun _ => symtabOutcomeW) (fun _ => maxIDOutcomeW)
      = .ok [] ∧
    ¬ ∃ l, readFragments fragRowsW (fun _ => symtabOutcomeW) (fun _ => maxIDOutcomeW)
        = .ok l ∧ ∃ f ∈ l, f.fid.text = some "resource/images/cover.jpg" := by
  have h1 : readFragments fragRowsW (fun _ => symtabOutcomeW) (fun _ => maxIDOutcomeW)
      = .ok [] := by decide
  refine ⟨h1, ?_⟩
  rintro ⟨l, hl, f, hf, _⟩
  rw [h1] at hl
  cases hl
  cases hf

/-- C1 (amended): the fragment classification holds of the Phase B row
loop as written in the source's disabled block, not of the compiled
`readFragments` (which returns an empty list).  When no row takes a
fatal path, the loop returns exactly one fragment per successfully
classified non-bootstrap row, in row order; an empty blob payload is
skipped; a blob payload lacking the version-marker prefix becomes a
fragment whose id is the row id prefixed with `resource/`, whose type is
the fixed `$417` path-type symbol, and whose payload is the raw bytes; a
payload equal to only the version marker is always skipped (the
navigation-placeholder id only suppresses the logged warning). -/
theorem C1_phase_b_classification (add : String → Nat)
    (readOf : String → List Nat → AnnotatedRead)
    (rows : List (String × String × List Nat))
    (hok : ∀ r ∈ rows.filter (fun r => r.1 != "max_id" && r.1 != "$ion_symbol_table"),
      rowFatal readOf r = false) :
    phaseB (some add) readOf rows
      = .ok ((rows.filter (fun r => r.1 != "max_id" && r.1 != "$ion_symbol_table")).filterMap
          (classifyRow (some add) readOf)) ∧
    (∀ id pl, pl ≠ [] → ionBVM.isPrefixOf pl = false →
      classifyRow (some add) readOf (id, "blob", pl)
        = some (newFrag ⟨some "$417", (417 : Int)⟩
            (createSymbolToken (resourceID id) (some add)) pl)) ∧
    resourceID "images/cover.jpg" = "resource/images/cover.jpg" ∧
    (∀ id, classifyRow (some add) readOf (id, "blob", []) = none) ∧
    (∀ id, classifyRow (some add) readOf (id, "blob", ionBVM) = none) := by
  refine ⟨phaseBRows_ok (some add) readOf _ hok, ?_, by decide, ?_, ?_⟩
  · intro id pl hne hpre
    have h417 : createSymbolToken "$417" (some add) = ⟨some "$417", (417 : Int)⟩ := by
      have := createSymbolToken_literal "417".data (by decide) (by decide) (by decide)
        (some add)
      simpa using this
    simp [classifyRow, hpre, h417, hne]
  · intro id
    simp [classifyRow]
  · intro id
    simp [classifyRow, (by decide : ionBVM.isPrefixOf ionBVM = true)]

/-- Witness for the amended C1 on the concrete database: the cover row
is classified into the `$417`-typed resource fragment and is the entire
output of the loop. -/
theorem C1_phase_b_classification_witness :
    (∀ r ∈ fragRowsW.filter (fun r => r.1 != "max_id" && r.1 != "$ion_symbol_table"),
      rowFatal readOfW r = false) ∧
    phaseB (some addW) readOfW fragRowsW
      = .ok ((fragRowsW.filter
          (fun r => r.1 != "max_id" && r.1 != "$ion_symbol_table")).filterMap
          (classifyRow (some addW) readOfW)) ∧
    classifyRow (some addW) readOfW ("images/cover.jpg", "blob", [1, 2, 3])
      = some (newFrag ⟨some "$417", (417 : Int)⟩
          (createSymbolToken (resourceID "images/cover.jpg") (some addW)) [1, 2, 3]) ∧
    resourceID "images/cover.jpg" = "resource/images/cover.jpg" ∧
    classifyRow (some addW) readOfW ("book_navigation", "blob", ionBVM) = none := by
  have h := C1_phase_b_classification addW readOfW fragRowsW (by decide)
  exact ⟨by decide, h.1, h.2.1 "images/cover.jpg" [1, 2, 3] (by decide) (by decide),
    h.2.2.1, h.2.2.2.2 "book_navigation"⟩

end Fb2c
